import Mathlib

/-!
Verification of the stream-resolution and playback-attachment core of the
repository (source: `src/playback-patch.js`).

The JavaScript source is shallowly embedded: the browser `fetch` is an
explicit oracle (`Network`), promises and `try`/`catch` become explicit
`Option`/branching, and the WHATWG `URL` constructor is modelled by a
simplified parser for `scheme://host/path?query#fragment` shaped URLs
(fragments are dropped, `..` segments are not normalised, and scheme/host
case is preserved; these simplifications do not affect the claims below).
Strings are processed as their character lists throughout so that every
definition evaluates by kernel reduction.
-/

/-- JavaScript `String.prototype.trim` (ASCII whitespace model). -/
def jsTrim (l : List Char) : List Char :=
  ((l.dropWhile Char.isWhitespace).reverse.dropWhile Char.isWhitespace).reverse

/-- Lower-case every character, modelling `String.prototype.toLowerCase`. -/
def lowerStr (s : String) : String :=
  String.mk (s.data.map Char.toLower)

/-- Split at the first occurrence of the substring `pat`: returns the part
before and the part after the first match, or `none` if `pat` never occurs. -/
def breakOnSub (pat : List Char) : List Char → Option (List Char × List Char)
  | [] => none
  | c :: rest =>
    if pat.isPrefixOf (c :: rest) then some ([], (c :: rest).drop pat.length)
    else
      match breakOnSub pat rest with
      | some p => some (c :: p.1, p.2)
      | none => none

/-- `s` contains `pat` as a substring (models a bare regex / `includes` test). -/
def containsSub (s pat : String) : Bool :=
  (breakOnSub pat.data s.data).isSome

/-- Split at the first occurrence of the character `c`: the part before
(never containing `c`) and, when `c` occurs, the part after it. -/
def splitAtChar (c : Char) : List Char → List Char × Option (List Char)
  | [] => ([], none)
  | x :: xs =>
    if x = c then ([], some xs)
    else
      let r := splitAtChar c xs
      (x :: r.1, r.2)

/-- `suffix` is a suffix of `s` (models an anchored `...$` regex test). -/
def endsWithL (s suffix : String) : Bool :=
  suffix.data.isSuffixOf s.data

/-- Simplified WHATWG URL value: `scheme://host/pathname?search`. -/
structure URL where
  scheme : String
  host : String
  pathname : String
  search : String
deriving DecidableEq

/-- The serialisation `URL.href` used by the source at line 16. -/
def URL.href (u : URL) : String :=
  u.scheme ++ "://" ++ u.host ++ u.pathname ++ u.search

/-- Characters allowed in a URL scheme. -/
def isSchemeChar (c : Char) : Bool :=
  c.isAlpha || c.isDigit || c == '+' || c == '-' || c == '.'

/-- The search component as serialised into an href. -/
def queryStr : Option (List Char) → String
  | none => ""
  | some q => String.mk ('?' :: q)

/-- Characters that stay in the host: everything up to the first `/` or `?`. -/
def hostChar (c : Char) : Bool :=
  c != '/' && c != '?'

/-- A pathname from its raw characters: an absent path serialises as `/`. -/
def pathOf (l : List Char) : String :=
  if l = [] then "/" else String.mk l

/-- The host/path/query part of URL parsing, after `scheme://`. -/
def parseAfterScheme (scheme : String) (rest : List Char) : Option URL :=
  if rest.takeWhile hostChar = [] then none
  else
    some { scheme := scheme,
           host := String.mk (rest.takeWhile hostChar),
           pathname :=
             pathOf (splitAtChar '?' (rest.drop (rest.takeWhile hostChar).length)).1,
           search :=
             queryStr (splitAtChar '?' (rest.drop (rest.takeWhile hostChar).length)).2 }

/-- `new URL(s)` for an absolute URL: `none` models the constructor throwing.
Fragments are dropped. -/
def parseURL (s : String) : Option URL :=
  match breakOnSub "://".data (splitAtChar '#' s.data).1 with
  | none => none
  | some p =>
    if p.1 = [] then none
    else if p.1.all isSchemeChar then parseAfterScheme (String.mk p.1) p.2
    else none

/-- The directory part of a pathname: everything up to and including the
last `/`. -/
def dirOf (p : List Char) : List Char :=
  (p.reverse.dropWhile (fun c => c != '/')).reverse

/-- `new URL(l, base)`: absolute references parse on their own,
`//`-references borrow the base scheme, `/`-references replace the path,
other references resolve against the base directory. `none` models the
constructor throwing. -/
def resolveURLRef (l : String) (base : URL) : Option URL :=
  if containsSub l "://" then parseURL l
  else if l.data.take 2 = ['/', '/'] then
    parseURL (String.mk (base.scheme.data ++ ':' :: l.data))
  else if l = "" then some base
  else
    let pq := splitAtChar '?' (splitAtChar '#' l.data).1
    if l.data.head? = some '/' then
      some { base with pathname := String.mk pq.1, search := queryStr pq.2 }
    else
      some { base with
             pathname := String.mk (dirOf base.pathname.data ++ pq.1),
             search := queryStr pq.2 }

/-- The resolver's playlist test on a pathname: `/\.m3u8?$/` (source lines 9
and 16; note: no `i` flag, so case-sensitive). -/
def resolverPathTest (p : String) : Bool :=
  endsWithL p ".m3u8" || endsWithL p ".m3u"

/-- The content-type test `/application\/vnd\.apple\.mpegurl|application\/x-mpegURL|audio\/x-mpegurl|text\/plain/i`
(source line 9): an unanchored, case-insensitive alternation, i.e. a
substring test on the lower-cased header value. -/
def ctPlaylistTest (ct : String) : Bool :=
  let l := lowerStr ct
  containsSub l "application/vnd.apple.mpegurl" ||
  containsSub l "application/x-mpegurl" ||
  containsSub l "audio/x-mpegurl" ||
  containsSub l "text/plain"

/-- `looksLikePlaylist` (source line 9): URL-shape test OR content-type test. -/
def looksLikePlaylist (pathname ct : String) : Bool :=
  resolverPathTest pathname || ctPlaylistTest ct

/-- `text.split(/\r?\n/)`: split on `\n`, also consuming an immediately
preceding `\r`; a lone `\r` is not a separator. -/
def splitLinesJS : List Char → List (List Char)
  | [] => [[]]
  | '\r' :: '\n' :: rest => [] :: splitLinesJS rest
  | '\n' :: rest => [] :: splitLinesJS rest
  | c :: rest =>
    match splitLinesJS rest with
    | [] => [[c]]
    | h :: t => (c :: h) :: t

/-- Source line 13: split into lines, trim each, drop the falsy (empty) ones. -/
def linesOf (text : String) : List String :=
  ((splitLinesJS text.data).map (fun l => String.mk (jsTrim l))).filter
    (fun s => s != "")

/-- Outcome of the `for(const l of lines)` scan (source lines 14-17). -/
inductive ScanOut where
  | fallThrough : ScanOut
  | leaf : String → ScanOut
  | recurse : String → ScanOut
deriving DecidableEq

/-- The line scan of source lines 14-17: skip `#` lines; build a candidate
URL against the final URL; on a URL-construction failure continue with the
next line; recurse only when the candidate's path looks like a playlist AND
the candidate differs from the original URL (cycle guard), otherwise the
candidate itself is the result. -/
def scanLines (origUrl : String) (base : URL) : List String → ScanOut
  | [] => .fallThrough
  | l :: rest =>
    if l.data.head? = some '#' then scanLines origUrl base rest
    else
      match resolveURLRef l base with
      | none => scanLines origUrl base rest
      | some cu =>
        match parseURL cu.href with
        | none => scanLines origUrl base rest
        | some cu2 =>
          if resolverPathTest cu2.pathname && (cu.href != origUrl) then
            .recurse cu.href
          else .leaf cu.href

/-- The first candidate the scan would build, before the playlist/cycle
test: the claim C7 hypothesis "the single usable entry resolves to ...". -/
def firstCandidate (base : URL) : List String → Option String
  | [] => none
  | l :: rest =>
    if l.data.head? = some '#' then firstCandidate base rest
    else
      match resolveURLRef l base with
      | none => firstCandidate base rest
      | some cu =>
        match parseURL cu.href with
        | none => firstCandidate base rest
        | some _ => some cu.href

/-- A fetch response as the resolver consumes it: `url` is `resp.url`
(`""` models a falsy/absent value), `contentType` is
`resp.headers.get('content-type') || ''`, and `body` is the result of
`resp.text()` (`none` models that promise rejecting). -/
structure FetchResp where
  url : String
  contentType : String
  body : Option String
deriving DecidableEq

/-- Outcome of `fetch(url, ...)`: rejection or a response. -/
inductive FetchOutcome where
  | failure : FetchOutcome
  | success : FetchResp → FetchOutcome
deriving DecidableEq

/-- The network oracle standing for the browser `fetch`. -/
def Network : Type :=
  String → FetchOutcome

/-- What a single resolution level does once entered (source lines 5-21),
before the `depth` guards: the three `*Fail` outcomes are the failure points
whose exceptions reach the `catch` of line 21. -/
inductive LevelOutcome where
  | fetchFail : LevelOutcome
  | parseFail : LevelOutcome
  | textFail : LevelOutcome
  | emptyText : String → LevelOutcome
  | fallThrough : String → LevelOutcome
  | leaf : String → LevelOutcome
  | recurse : String → LevelOutcome
deriving DecidableEq

/-- One level of `resolveStreamUrl` (source lines 5-21): fetch, compute the
final URL (`resp.url` when truthy, else the input), parse it, classify as a
playlist, read the body, and scan the lines. -/
def levelOutcome (net : Network) (url : String) : LevelOutcome :=
  match net url with
  | .failure => .fetchFail
  | .success resp =>
    let finalUrl := if resp.url = "" then url else resp.url
    match parseURL finalUrl with
    | none => .parseFail
    | some fu =>
      if looksLikePlaylist fu.pathname resp.contentType then
        match resp.body with
        | none => .textFail
        | some text =>
          if text = "" then .emptyText finalUrl
          else
            match scanLines url fu (linesOf text) with
            | .fallThrough => .fallThrough finalUrl
            | .leaf c => .leaf c
            | .recurse c => .recurse c
      else .fallThrough finalUrl

/-- The recursion depth bound of source line 4. -/
def maxDepth : Nat := 4

/-- `resolveStreamUrl` instrumented with a fetch counter. `fuel` is only a
structural-termination device: the source bounds recursion by the
`depth > 4` guard, so any `fuel ≥ maxDepth + 1` is never exhausted from the
entry point. The second component counts `fetch` calls. The three failure
outcomes land in the `catch` of line 21 and return the level's input URL. -/
def resolveGo (net : Network) : Nat → String → Nat → String × Nat
  | fuel, url, depth =>
    if url = "" then (url, 0)
    else if maxDepth < depth then (url, 0)
    else
      match levelOutcome net url with
      | .fetchFail => (url, 1)
      | .parseFail => (url, 1)
      | .textFail => (url, 1)
      | .emptyText f => (f, 1)
      | .fallThrough f => (f, 1)
      | .leaf c => (c, 1)
      | .recurse c =>
        match fuel with
        | 0 => (url, 1)
        | f + 1 =>
          let p := resolveGo net f c (depth + 1)
          (p.1, p.2 + 1)

/-- `resolveStreamUrl(url, depth)` together with the number of network
calls it performs. -/
def resolveStreamUrlN (net : Network) (url : String) (depth : Nat) : String × Nat :=
  resolveGo net (maxDepth + 1) url depth

/-- `resolveStreamUrl(url, depth)` (source lines 2-22). -/
def resolveStreamUrl (net : Network) (url : String) (depth : Nat) : String :=
  (resolveStreamUrlN net url depth).1

/-- The level falls into the `catch` of line 21: the fetch rejected, or
`new URL(finalUrl)` threw, or `resp.text()` rejected. -/
def tryLevelFails (net : Network) (url : String) : Bool :=
  match levelOutcome net url with
  | .fetchFail => true
  | .parseFail => true
  | .textFail => true
  | _ => false

/-- A level entered below the depth bound recurses: the scan produced a
fresh playlist candidate. -/
def recStep (net : Network) (url : String) : Option String :=
  if url = "" then none
  else
    match levelOutcome net url with
    | .recurse c => some c
    | _ => none

/-- `loadScript(src)` (source lines 24-29), modelled on the document state:
the document is the list of `src` attributes of its script tags. If a tag
with this `src` already exists the promise resolves immediately and nothing
is appended; otherwise a new script element is appended (second component
`true` = a new element was created and a fetch of the script started). -/
def loadScript (doc : List String) (src : String) : List String × Bool :=
  if src ∈ doc then (doc, false)
  else (doc ++ [src], true)

/-- `n` sequential `loadScript` calls for the same `src`; the second
component counts how many created a new script element (started a fetch). -/
def loadScriptN : Nat → List String → String → List String × Nat
  | 0, doc, _ => (doc, 0)
  | n + 1, doc, src =>
    let p := loadScript doc src
    let rest := loadScriptN n p.1 src
    (rest.1, (if p.2 then 1 else 0) + rest.2)

/-- The attacher's HLS test `/\.m3u8(\?|$)/i` (source line 49) on a
pathname: at some position, `.m3u8` matches case-insensitively and is
followed by `?` or the end of the string. -/
def testHlsPathAux : List Char → Bool
  | [] => false
  | c :: rest =>
    ((((c :: rest).take 5).map Char.toLower == ".m3u8".data) &&
      (((c :: rest).drop 5).isEmpty || (((c :: rest).drop 5).head? == some '?')))
    || testHlsPathAux rest

/-- Source line 49: `isHls` is the regex test on `new URL(src).pathname`;
if the URL constructor throws, the fallback is
`src.toLowerCase().includes('.m3u8')`. -/
def classifyIsHls (src : String) : Bool :=
  match parseURL src with
  | some u => testHlsPathAux u.pathname.data
  | none => containsSub (lowerStr src) ".m3u8"

/-- What the deferred attachment pass does with a source URL
(source lines 50-59): nothing when the source is not classified HLS,
native playback when the element reports native HLS support, otherwise the
dynamically loaded client. -/
inductive AttachAction where
  | nothing : AttachAction
  | native : AttachAction
  | client : AttachAction
deriving DecidableEq

/-- The attachment decision of source lines 50-53. -/
def attachAction (src : String) (canPlayNative : Bool) : AttachAction :=
  if !(classifyIsHls src) then .nothing
  else if canPlayNative then .native
  else .client

/-- State of the adaptive-streaming client lifecycle (source lines 55-58):
`slot` is `window._hlsInstance` (instances are numbered by creation order),
`alive` lists the instances constructed and not yet destroyed, `destroys`
counts `destroy()` calls, `nextId` numbers the next construction. -/
structure HlsWorld where
  slot : Option Nat
  alive : List Nat
  destroys : Nat
  nextId : Nat
deriving DecidableEq

/-- One successful HLS attachment (source lines 55-58): if an instance is
present, destroy it and clear the slot; then construct a new instance, bind
it, and store it as the sole live session. -/
def attachHls (w : HlsWorld) : HlsWorld :=
  let w1 :=
    match w.slot with
    | some i =>
      { w with slot := none, alive := w.alive.erase i, destroys := w.destroys + 1 }
    | none => w
  { w1 with slot := some w1.nextId, alive := w1.alive ++ [w1.nextId],
            nextId := w1.nextId + 1 }

/-- The empty page state: no client instance ever constructed. -/
def hlsInit : HlsWorld :=
  { slot := none, alive := [], destroys := 0, nextId := 0 }

/-- `n` sequential successful HLS attachments starting from the empty page. -/
def attachHlsN : Nat → HlsWorld
  | 0 => hlsInit
  | n + 1 => attachHls (attachHlsN n)

/-- Observable effects of one call of the wrapped `window.playPlaylistTrack`
(source lines 33-63): the playlist afterwards, the arguments passed to the
external player `orig` in order, the number of network calls made by
resolution, whether `resolveStreamUrl` was invoked at all (line 38 reached),
whether the deferred attachment pass was scheduled (line 41 reached), and
whether the wrapper's own promise rejects. -/
structure WrapResult where
  playlist : List String
  origCalls : List (Option ℚ)
  fetches : Nat
  resolveInvoked : Bool
  attachScheduled : Bool
  threw : Bool
deriving DecidableEq

/-- `const t = window.currentPlaylist[idx]` (source line 37) for a numeric
index already known to satisfy `0 <= idx < length`: array indexing with a
non-integer number reads a plain property and yields `undefined` (`none`). -/
def playlistEntry (pl : List String) (q : ℚ) : Option String :=
  if q.den = 1 then pl.get? q.num.toNat else none

/-- `const resolved = await resolveStreamUrl(t)` (source line 38): when the
entry is `undefined` the resolver returns it unchanged through its falsy
guard without any network call; otherwise it resolves the string. The
second component is the number of network calls. -/
def resolveEntry (net : Network) (t : Option String) : Option String × Nat :=
  match t with
  | none => (none, 0)
  | some s =>
    let p := resolveStreamUrlN net s 0
    (some p.1, p.2)

/-- `if(resolved && resolved !== t) window.currentPlaylist[idx] = resolved`
(source line 39): write back only a truthy (non-empty) resolved string that
differs from the current entry. -/
def writeBack (pl : List String) (i : Nat) (t resolved : Option String) :
    List String :=
  match t, resolved with
  | some s, some r => if r ≠ "" ∧ r ≠ s then pl.set i r else pl
  | _, _ => pl

/-- The wrapped `window.playPlaylistTrack` (source lines 33-63). The index
is a JavaScript value: `none` is a non-number, `some q` a (finite) number,
modelled as a rational. `orig` is the external player oracle, indexed by
call order, `true` meaning its promise fulfills. Mirrors the source:
non-numbers and out-of-range numbers return `orig(idx)` without awaiting it
(so a rejection there is not retried); otherwise the playlist entry is read
(`undefined`, i.e. `none`, for a non-integer index), resolved
(`resolveStreamUrl(undefined)` returns immediately via its falsy guard),
conditionally written back (only a truthy resolved value that differs), and
`await orig(idx)` rejecting lands in the `catch` which calls `orig(idx)`
once more. -/
def playPlaylistTrack (net : Network) (orig : Nat → Option ℚ → Bool)
    (pl : List String) (idx : Option ℚ) : WrapResult :=
  match idx with
  | none =>
    { playlist := pl, origCalls := [none], fetches := 0, resolveInvoked := false,
      attachScheduled := false, threw := !(orig 0 none) }
  | some q =>
    if q < 0 ∨ (pl.length : ℚ) ≤ q then
      { playlist := pl, origCalls := [some q], fetches := 0, resolveInvoked := false,
        attachScheduled := false, threw := !(orig 0 (some q)) }
    else
      let t := playlistEntry pl q
      let rr := resolveEntry net t
      let pl2 := writeBack pl q.num.toNat t rr.1
      if orig 0 (some q) then
        { playlist := pl2, origCalls := [some q], fetches := rr.2,
          resolveInvoked := true, attachScheduled := true, threw := false }
      else
        { playlist := pl2, origCalls := [some q, some q], fetches := rr.2,
          resolveInvoked := true, attachScheduled := false,
          threw := !(orig 1 (some q)) }

/-! ## Networks used as concrete test oracles -/

/-- A network on which every fetch rejects. -/
def netFail : Network := fun _ => .failure

/-- An external player whose promise always fulfills. -/
def origAlwaysOk : Nat → Option ℚ → Bool := fun _ _ => true

/-- An external player whose promise always rejects. -/
def origAlwaysBad : Nat → Option ℚ → Bool := fun _ _ => false

/-- The network of the nested-manifest scenario of C6. -/
def netC6 : Network := fun u =>
  if u = "https://cdn.example/a.m3u8" then
    .success { url := "https://cdn.example/a.m3u8", contentType := "",
               body := some "#EXTM3U\nhttps://cdn.example/b.m3u8" }
  else if u = "https://cdn.example/b.m3u8" then
    .success { url := "https://cdn.example/b.m3u8", contentType := "",
               body := some "#EXTM3U\nhttps://cdn.example/seg.ts" }
  else .failure

/-! ## C1: the resolver is total and falls back to its input on failure -/

/-- C1. `resolveStreamUrl` is a total `String`-valued function by
construction (it never rejects). Whenever the level's `try` body fails —
the fetch rejects, `new URL(finalUrl)` throws, or `resp.text()` rejects —
the call returns the best URL known at that point, namely its own input;
the empty-input and depth-exceeded short-circuits likewise return the
input unchanged. Since the statement holds for every `url` and `depth`,
it covers every recursion level. -/
theorem resolveStreamUrl_total_fallback (net : Network) (url : String) (depth : Nat) :
    ((url = "" ∨ maxDepth < depth) → resolveStreamUrl net url depth = url) ∧
    (tryLevelFails net url = true → resolveStreamUrl net url depth = url) := by
  constructor
  · intro h
    by_cases hu : url = ""
    · simp [resolveStreamUrl, resolveStreamUrlN, resolveGo, hu]
    · rcases h with h | h
      · exact absurd h hu
      · simp [resolveStreamUrl, resolveStreamUrlN, resolveGo, hu, h]
  · intro h
    by_cases hu : url = ""
    · simp [resolveStreamUrl, resolveStreamUrlN, resolveGo, hu]
    · by_cases hd : maxDepth < depth
      · simp [resolveStreamUrl, resolveStreamUrlN, resolveGo, hu, hd]
      · unfold tryLevelFails at h
        cases hlo : levelOutcome net url <;> rw [hlo] at h <;> simp at h <;>
          simp [resolveStreamUrl, resolveStreamUrlN, resolveGo, hu, hd, hlo]

/-- Witness for C1: on a network where every fetch rejects, the resolver
returns its input; the empty input is also returned unchanged. -/
theorem resolveStreamUrl_total_fallback_witness :
    resolveStreamUrl netFail "" 0 = "" ∧
    resolveStreamUrl netFail "https://a.example/x" 0 = "https://a.example/x" :=
  ⟨(resolveStreamUrl_total_fallback netFail "" 0).1 (Or.inl rfl),
   (resolveStreamUrl_total_fallback netFail "https://a.example/x" 0).2 (by decide)⟩

/-! ## C6: the two-level nested-manifest scenario -/

/-- C6. For the input `https://cdn.example/a.m3u8` whose body references
`b.m3u8`, whose body in turn references `seg.ts`, the resolver returns
`https://cdn.example/seg.ts` after exactly two network calls. -/
theorem resolveStreamUrl_nested_scenario :
    resolveStreamUrlN netC6 "https://cdn.example/a.m3u8" 0 =
      ("https://cdn.example/seg.ts", 2) := by decide

/-! ## C5: session exclusivity of the adaptive-streaming client -/

/-- After `n + 1` successful attachments exactly the newest instance is
alive, `n` destroy calls have been issued, and `n + 1` instances were
constructed. -/
theorem attachHlsN_succ (n : Nat) :
    attachHlsN (n + 1) =
      { slot := some n, alive := [n], destroys := n, nextId := n + 1 } := by
  induction n with
  | zero => rfl
  | succ n ih =>
    show attachHls (attachHlsN (n + 1)) = _
    rw [ih]
    simp [attachHls]

/-- C5. After `n ≥ 1` sequential successful HLS attachments starting from a
fresh page, exactly one client instance is alive (the slot holds it) and
exactly `n - 1` destroy calls have been issued; moreover every single
attachment first issues a destroy exactly when an instance is present. -/
theorem hlsSession_exclusivity (n : Nat) (h : 1 ≤ n) :
    (attachHlsN n).alive.length = 1 ∧ (attachHlsN n).destroys = n - 1 ∧
    (attachHlsN n).slot = some ((attachHlsN n).nextId - 1) ∧
    (∀ w : HlsWorld, (attachHls w).destroys =
      w.destroys + (if w.slot.isSome then 1 else 0)) := by
  obtain ⟨m, rfl⟩ : ∃ m, n = m + 1 := ⟨n - 1, by omega⟩
  rw [attachHlsN_succ]
  refine ⟨rfl, rfl, rfl, ?_⟩
  intro w
  cases hs : w.slot <;> simp [attachHls, hs]

/-- Witness for C5 at `n = 3`: one live instance, two destroys. -/
theorem hlsSession_exclusivity_witness :
    (attachHlsN 3).alive.length = 1 ∧ (attachHlsN 3).destroys = 3 - 1 ∧
    (attachHlsN 3).slot = some ((attachHlsN 3).nextId - 1) ∧
    (attachHls hlsInit).destroys =
      hlsInit.destroys + (if hlsInit.slot.isSome then 1 else 0) :=
  ⟨(hlsSession_exclusivity 3 (by decide)).1,
   (hlsSession_exclusivity 3 (by decide)).2.1,
   (hlsSession_exclusivity 3 (by decide)).2.2.1,
   (hlsSession_exclusivity 3 (by decide)).2.2.2 hlsInit⟩

/-! ## C8: idempotent script loading -/

/-- Once the script tag is present, further load requests change nothing
and never fetch. -/
theorem loadScriptN_of_mem (n : Nat) (doc : List String) (src : String)
    (h : src ∈ doc) : loadScriptN n doc src = (doc, 0) := by
  induction n with
  | zero => rfl
  | succ n ih => simp [loadScriptN, loadScript, h, ih]

/-- C8. `loadScript` is idempotent: a load request for a URL already
present as a script tag resolves immediately, creating no element and
fetching nothing; and any number of sequential load requests fetch the
script at most once in total. -/
theorem loadScript_idempotent (doc : List String) (src : String) (n : Nat) :
    (src ∈ doc → loadScript doc src = (doc, false)) ∧
    (loadScriptN n doc src).2 ≤ 1 := by
  constructor
  · intro h
    simp [loadScript, h]
  · cases n with
    | zero => simp [loadScriptN]
    | succ n =>
      by_cases h : src ∈ doc
      · simp [loadScriptN, loadScript, h, loadScriptN_of_mem n doc src h]
      · have hm : loadScriptN n (doc ++ [src]) src = (doc ++ [src], 0) :=
          loadScriptN_of_mem n (doc ++ [src]) src (by simp)
        simp [loadScriptN, loadScript, h, hm]

/-- Witness for C8: the client script URL already present is not re-added,
and five sequential load requests from an empty document fetch once. -/
theorem loadScript_idempotent_witness :
    loadScript ["https://cdn.jsdelivr.net/npm/hls.js@1.4.0/dist/hls.min.js"]
        "https://cdn.jsdelivr.net/npm/hls.js@1.4.0/dist/hls.min.js" =
      (["https://cdn.jsdelivr.net/npm/hls.js@1.4.0/dist/hls.min.js"], false) ∧
    (loadScriptN 5 [] "https://cdn.jsdelivr.net/npm/hls.js@1.4.0/dist/hls.min.js").2 ≤ 1 :=
  ⟨(loadScript_idempotent ["https://cdn.jsdelivr.net/npm/hls.js@1.4.0/dist/hls.min.js"]
      "https://cdn.jsdelivr.net/npm/hls.js@1.4.0/dist/hls.min.js" 5).1 (by decide),
   (loadScript_idempotent [] "https://cdn.jsdelivr.net/npm/hls.js@1.4.0/dist/hls.min.js" 5).2⟩

/-! ## C2: termination at the depth bound -/

theorem resolveGo_depth_exceeded (net : Network) (fuel : Nat) (url : String)
    (depth : Nat) (h : maxDepth < depth) : resolveGo net fuel url depth = (url, 0) := by
  rw [resolveGo.eq_def]
  by_cases hu : url = "" <;> simp [hu, h]

theorem recStep_some (net : Network) (url c : String) (h : recStep net url = some c) :
    url ≠ "" ∧ levelOutcome net url = .recurse c := by
  unfold recStep at h
  by_cases hu : url = ""
  · rw [if_pos hu] at h; exact absurd h (by simp)
  · rw [if_neg hu] at h
    refine ⟨hu, ?_⟩
    cases hlo : levelOutcome net url <;> simp only [hlo] at h <;> simp at h
    rw [h]

theorem resolveGo_step (net : Network) (f : Nat) (url c : String) (depth : Nat)
    (hd : depth ≤ maxDepth) (h : recStep net url = some c) :
    resolveGo net (f + 1) url depth =
      ((resolveGo net f c (depth + 1)).1, (resolveGo net f c (depth + 1)).2 + 1) := by
  obtain ⟨hu, hlo⟩ := recStep_some net url c h
  conv_lhs => rw [resolveGo.eq_def]
  simp [hu, Nat.not_lt.mpr hd, hlo]

theorem parseURL_isSome_ne_empty {s : String} (h : (parseURL s).isSome) : s ≠ "" := by
  rintro rfl
  rw [(by decide : parseURL "" = none)] at h
  simp at h

theorem scanLines_recurse_isSome (o : String) (b : URL) (ls : List String)
    (c : String) (h : scanLines o b ls = .recurse c) : (parseURL c).isSome := by
  induction ls with
  | nil => simp [scanLines] at h
  | cons l rest ih =>
    unfold scanLines at h
    by_cases hh : l.data.head? = some '#'
    · rw [if_pos hh] at h; exact ih h
    · rw [if_neg hh] at h
      cases hr : resolveURLRef l b with
      | none => simp only [hr] at h; exact ih h
      | some cu =>
        simp only [hr] at h
        cases hp : parseURL cu.href with
        | none => simp only [hp] at h; exact ih h
        | some cu2 =>
          simp only [hp] at h
          by_cases ht : (resolverPathTest cu2.pathname && (cu.href != o)) = true
          · rw [if_pos ht] at h
            cases h
            simp [hp]
          · rw [if_neg ht] at h
            exact absurd h (by simp)

theorem levelOutcome_recurse_isSome (net : Network) (url c : String)
    (h : levelOutcome net url = .recurse c) : (parseURL c).isSome := by
  unfold levelOutcome at h
  cases hn : net url with
  | failure => simp [hn] at h
  | success resp =>
    simp only [hn] at h
    cases hp : parseURL (if resp.url = "" then url else resp.url) with
    | none => simp [hp] at h
    | some fu =>
      simp only [hp] at h
      by_cases hl : looksLikePlaylist fu.pathname resp.contentType = true
      · rw [if_pos hl] at h
        cases hb : resp.body with
        | none => simp [hb] at h
        | some text =>
          simp only [hb] at h
          by_cases he : text = ""
          · rw [if_pos he] at h; exact absurd h (by simp)
          · rw [if_neg he] at h
            cases hs : scanLines url fu (linesOf text) with
            | fallThrough => simp [hs] at h
            | leaf d => simp [hs] at h
            | recurse d =>
              simp only [hs] at h
              cases h
              exact scanLines_recurse_isSome url fu (linesOf text) c hs
      · rw [if_neg hl] at h
        exact absurd h (by simp)

/-- C2. On any chain that exceeds the depth bound — i.e. any sequence of
URLs `u 0, u 1, …` where every level up to depth `maxDepth` takes the
recursive branch — the resolver terminates by the `depth > maxDepth` guard,
performs exactly `maxDepth + 1 = 5` network calls, and returns the last
candidate found (non-empty), rather than failing. -/
theorem resolveStreamUrl_depth_bound (net : Network) (u : Nat → String)
    (h : ∀ i, i < maxDepth + 1 → recStep net (u i) = some (u (i + 1))) :
    resolveStreamUrlN net (u 0) 0 = (u (maxDepth + 1), maxDepth + 1) ∧
    u (maxDepth + 1) ≠ "" := by
  have h0 := h 0 (by decide)
  have h1 := h 1 (by decide)
  have h2 := h 2 (by decide)
  have h3 := h 3 (by decide)
  have h4 := h 4 (by decide)
  constructor
  · show resolveGo net (4 + 1) (u 0) 0 = (u 5, 5)
    rw [resolveGo_step net 4 (u 0) (u 1) 0 (by decide) h0,
        show (4 : Nat) = 3 + 1 from rfl,
        resolveGo_step net 3 (u 1) (u 2) 1 (by decide) h1,
        show (3 : Nat) = 2 + 1 from rfl,
        resolveGo_step net 2 (u 2) (u 3) 2 (by decide) h2,
        show (2 : Nat) = 1 + 1 from rfl,
        resolveGo_step net 1 (u 3) (u 4) 3 (by decide) h3,
        show (1 : Nat) = 0 + 1 from rfl,
        resolveGo_step net 0 (u 4) (u 5) 4 (by decide) h4,
        resolveGo_depth_exceeded net 0 (u 5) 5 (by decide)]
  · exact parseURL_isSome_ne_empty
      (levelOutcome_recurse_isSome net (u 4) (u 5) (recStep_some net (u 4) (u 5) h4).2)

/-- A five-link chain of manifests, each pointing at the next. -/
def chainU : Nat → String
  | 0 => "https://h.example/p0.m3u8"
  | 1 => "https://h.example/p1.m3u8"
  | 2 => "https://h.example/p2.m3u8"
  | 3 => "https://h.example/p3.m3u8"
  | 4 => "https://h.example/p4.m3u8"
  | _ => "https://h.example/p5.m3u8"

/-- The network serving the chain: fetching link `i` yields a playlist
whose single entry is link `i + 1`. -/
def chainNet : Network := fun u =>
  if u = chainU 0 then
    .success { url := chainU 0, contentType := "", body := some ("#EXTM3U\n" ++ chainU 1) }
  else if u = chainU 1 then
    .success { url := chainU 1, contentType := "", body := some ("#EXTM3U\n" ++ chainU 2) }
  else if u = chainU 2 then
    .success { url := chainU 2, contentType := "", body := some ("#EXTM3U\n" ++ chainU 3) }
  else if u = chainU 3 then
    .success { url := chainU 3, contentType := "", body := some ("#EXTM3U\n" ++ chainU 4) }
  else if u = chainU 4 then
    .success { url := chainU 4, contentType := "", body := some ("#EXTM3U\n" ++ chainU 5) }
  else .failure

/-- Witness for C2: on the concrete five-link chain, resolution stops after
five network calls at the fifth link. -/
theorem resolveStreamUrl_depth_bound_witness :
    resolveStreamUrlN chainNet (chainU 0) 0 = (chainU (maxDepth + 1), maxDepth + 1) ∧
    chainU (maxDepth + 1) ≠ "" :=
  resolveStreamUrl_depth_bound chainNet chainU (by decide)

/-! ## C7: the cycle guard -/

/-- When the first usable (non-comment, parseable) playlist entry resolves
to the step's own original URL, the scan returns it as a leaf: the cycle
guard `candidate !== originalUrl` blocks the recursive branch. -/
theorem firstCandidate_self_leaf (o : String) (b : URL) (ls : List String)
    (h : firstCandidate b ls = some o) : scanLines o b ls = .leaf o := by
  induction ls with
  | nil => simp [firstCandidate] at h
  | cons l rest ih =>
    unfold firstCandidate at h
    unfold scanLines
    by_cases hh : l.data.head? = some '#'
    · rw [if_pos hh] at h ⊢; exact ih h
    · rw [if_neg hh] at h ⊢
      cases hr : resolveURLRef l b with
      | none => simp only [hr] at h ⊢; exact ih h
      | some cu =>
        simp only [hr] at h ⊢
        cases hp : parseURL cu.href with
        | none => simp only [hp] at h ⊢; exact ih h
        | some cu2 =>
          simp only [hp] at h ⊢
          cases h
          simp

/-- C7. A resolution step below the depth bound whose fetched playlist's
single usable entry resolves to the step's own requested URL terminates at
that step — one network call, no recursion — returning that URL. -/
theorem resolveStreamUrl_cycle_guard (net : Network) (url : String) (depth : Nat)
    (resp : FetchResp) (fu : URL) (text : String)
    (hu : url ≠ "") (hd : depth ≤ maxDepth)
    (hnet : net url = .success resp)
    (hp : parseURL (if resp.url = "" then url else resp.url) = some fu)
    (hpl : looksLikePlaylist fu.pathname resp.contentType = true)
    (hb : resp.body = some text) (ht : text ≠ "")
    (hfc : firstCandidate fu (linesOf text) = some url) :
    resolveStreamUrlN net url depth = (url, 1) := by
  have hlo : levelOutcome net url = .leaf url := by
    unfold levelOutcome
    simp only [hnet, hp, hb]
    rw [if_pos hpl, if_neg ht, firstCandidate_self_leaf url fu (linesOf text) hfc]
  show resolveGo net (maxDepth + 1) url depth = (url, 1)
  rw [resolveGo.eq_def]
  simp [hu, Nat.not_lt.mpr hd, hlo]

/-- The network of the self-referential playlist scenario. -/
def netC7 : Network := fun u =>
  if u = "https://cdn.example/loop.m3u8" then
    .success { url := "https://cdn.example/loop.m3u8", contentType := "",
               body := some "#EXTM3U\nhttps://cdn.example/loop.m3u8" }
  else .failure

/-- Witness for C7: a playlist whose single entry is the requested URL
itself resolves to that URL after exactly one network call. -/
theorem resolveStreamUrl_cycle_guard_witness :
    resolveStreamUrlN netC7 "https://cdn.example/loop.m3u8" 0 =
      ("https://cdn.example/loop.m3u8", 1) :=
  resolveStreamUrl_cycle_guard netC7 "https://cdn.example/loop.m3u8" 0
    { url := "https://cdn.example/loop.m3u8", contentType := "",
      body := some "#EXTM3U\nhttps://cdn.example/loop.m3u8" }
    { scheme := "https", host := "cdn.example", pathname := "/loop.m3u8", search := "" }
    "#EXTM3U\nhttps://cdn.example/loop.m3u8"
    (by decide) (by decide) (by decide) (by decide) (by decide) (by decide)
    (by decide) (by decide)

/-! ## C3: which indices bypass the core logic -/

/-- C3 fails as stated: the index `1/2` is not an integer yet lies within
`[0, 1)` for a one-element playlist, and the wrapper does NOT bypass the
core logic for it — the resolver call of line 38 is executed (with an
`undefined` entry) and the deferred attachment pass of line 41 is
scheduled, because the source only checks `typeof idx !== 'number'` and the
range, never integrality. -/
theorem playPlaylistTrack_noninteger_not_bypassed :
    (mkRat 1 2).den ≠ 1 ∧ 0 ≤ mkRat 1 2 ∧
    mkRat 1 2 < ((["https://a.example/x.mp3"].length : Nat) : ℚ) ∧
    (playPlaylistTrack netFail origAlwaysOk ["https://a.example/x.mp3"]
        (some (mkRat 1 2))).resolveInvoked = true ∧
    (playPlaylistTrack netFail origAlwaysOk ["https://a.example/x.mp3"]
        (some (mkRat 1 2))).attachScheduled = true := by decide

/-- C3 amended. A non-number index, or a number outside `[0, length)`,
bypasses all core logic — no resolver invocation, no network call, no
playlist mutation, no attachment pass — and is handed to the external
player unchanged as the only call. (A non-integer number inside the range
does enter the core path, though it still causes no network call and no
mutation; see the counterexample.) -/
theorem playPlaylistTrack_bypass_amended (net : Network)
    (orig : Nat → Option ℚ → Bool) (pl : List String) (idx : Option ℚ)
    (h : idx = none ∨ ∃ q, idx = some q ∧ (q < 0 ∨ (pl.length : ℚ) ≤ q)) :
    playPlaylistTrack net orig pl idx =
      { playlist := pl, origCalls := [idx], fetches := 0, resolveInvoked := false,
        attachScheduled := false, threw := !(orig 0 idx) } := by
  rcases h with rfl | ⟨q, rfl, hq⟩
  · rfl
  · simp only [playPlaylistTrack]
    rw [if_pos hq]

/-- Witness for C3 (amended) at the out-of-range index `-1`. -/
theorem playPlaylistTrack_bypass_amended_witness :
    playPlaylistTrack netFail origAlwaysOk ["https://a.example/x.mp3"]
        (some (mkRat (-1) 1)) =
      { playlist := ["https://a.example/x.mp3"], origCalls := [some (mkRat (-1) 1)],
        fetches := 0, resolveInvoked := false, attachScheduled := false,
        threw := false } :=
  playPlaylistTrack_bypass_amended netFail origAlwaysOk ["https://a.example/x.mp3"]
    (some (mkRat (-1) 1)) (Or.inr ⟨mkRat (-1) 1, rfl, Or.inl (by decide)⟩)

/-! ## C9 and C10: the in-range path of the wrapper -/

/-- For an in-range numeric index the playlist afterwards is exactly the
conditional write-back of lines 37-39, whichever way the external player's
promise settles. -/
theorem playPlaylistTrack_playlist_eq (net : Network)
    (orig : Nat → Option ℚ → Bool) (pl : List String) (q : ℚ)
    (hg : ¬(q < 0 ∨ (pl.length : ℚ) ≤ q)) :
    (playPlaylistTrack net orig pl (some q)).playlist =
      writeBack pl q.num.toNat (playlistEntry pl q)
        (resolveEntry net (playlistEntry pl q)).1 := by
  simp only [playPlaylistTrack]
  rw [if_neg hg]
  by_cases ho : orig 0 (some q) = true <;> simp [ho]

/-- C9. For every in-range numeric index, every playlist position is either
left unchanged, or it is the (integer) played index itself and its new
value is a non-empty string different from the previous entry: no entry is
ever overwritten with an empty or undefined value, and no other entry is
touched. -/
theorem playPlaylistTrack_write_guard (net : Network)
    (orig : Nat → Option ℚ → Bool) (pl : List String) (q : ℚ)
    (h0 : 0 ≤ q) (h1 : q < (pl.length : ℚ)) (j : Nat) :
    (playPlaylistTrack net orig pl (some q)).playlist.get? j = pl.get? j ∨
    (q.den = 1 ∧ j = q.num.toNat ∧
      ∃ r, (playPlaylistTrack net orig pl (some q)).playlist.get? j = some r ∧
        r ≠ "" ∧ pl.get? j ≠ some r) := by
  have hg : ¬(q < 0 ∨ (pl.length : ℚ) ≤ q) :=
    not_or.mpr ⟨not_lt.mpr h0, not_le.mpr h1⟩
  rw [playPlaylistTrack_playlist_eq net orig pl q hg]
  cases ht : playlistEntry pl q with
  | none => left; rfl
  | some s =>
    have hden : q.den = 1 := by
      by_contra hd
      simp [playlistEntry, hd] at ht
    have hget : pl.get? q.num.toNat = some s := by
      simpa [playlistEntry, hden] using ht
    simp only [resolveEntry, writeBack]
    by_cases hw : (resolveStreamUrlN net s 0).1 ≠ "" ∧ (resolveStreamUrlN net s 0).1 ≠ s
    · rw [if_pos hw]
      by_cases hj : j = q.num.toNat
      · subst hj
        right
        refine ⟨hden, rfl, (resolveStreamUrlN net s 0).1, ?_, hw.1, ?_⟩
        · rw [List.get?_set_eq, hget]
          rfl
        · rw [hget]
          simp only [ne_eq, Option.some.injEq]
          exact fun he => hw.2 he.symm
      · left
        exact List.get?_set_ne _ pl (Ne.symm hj)
    · rw [if_neg hw]
      left
      rfl

/-- Witness for C9 at index 0 of a one-element playlist over the failing
network: the entry is left unchanged. -/
theorem playPlaylistTrack_write_guard_witness :
    (playPlaylistTrack netFail origAlwaysOk ["https://a.example/x.mp3"]
        (some 0)).playlist.get? 0 = ["https://a.example/x.mp3"].get? 0 ∨
    ((0 : ℚ).den = 1 ∧ 0 = (0 : ℚ).num.toNat ∧
      ∃ r, (playPlaylistTrack netFail origAlwaysOk ["https://a.example/x.mp3"]
          (some 0)).playlist.get? 0 = some r ∧
        r ≠ "" ∧ ["https://a.example/x.mp3"].get? 0 ≠ some r) :=
  playPlaylistTrack_write_guard netFail origAlwaysOk ["https://a.example/x.mp3"] 0
    (by decide) (by decide) 0

/-- C10. For an in-range numeric index, if the awaited `orig(idx)` of line
40 rejects — the only step of the wrapped body that can throw, since the
resolver is total — the `catch` of line 62 invokes `orig(idx)` again: the
external player is called twice with the same index by a single wrapper
call. -/
theorem playPlaylistTrack_catch_retries_orig (net : Network)
    (orig : Nat → Option ℚ → Bool) (pl : List String) (q : ℚ)
    (h0 : 0 ≤ q) (h1 : q < (pl.length : ℚ))
    (hfail : orig 0 (some q) = false) :
    (playPlaylistTrack net orig pl (some q)).origCalls = [some q, some q] := by
  simp only [playPlaylistTrack]
  rw [if_neg (not_or.mpr ⟨not_lt.mpr h0, not_le.mpr h1⟩)]
  simp [hfail]

/-- Witness for C10: a rejecting external player is invoked twice for
index 0. -/
theorem playPlaylistTrack_catch_retries_orig_witness :
    (playPlaylistTrack netFail origAlwaysBad ["https://a.example/x.mp3"]
        (some 0)).origCalls = [some 0, some 0] :=
  playPlaylistTrack_catch_retries_orig netFail origAlwaysBad
    ["https://a.example/x.mp3"] 0 (by decide) (by decide) (by decide)

/-! ## C4: the attacher's HLS classification -/

theorem splitAtChar_fst_not_mem (c : Char) (l : List Char) :
    c ∉ (splitAtChar c l).1 := by
  induction l with
  | nil => simp [splitAtChar]
  | cons x xs ih =>
    unfold splitAtChar
    by_cases hx : x = c
    · rw [if_pos hx]; simp
    · rw [if_neg hx]
      intro hm
      rcases List.mem_cons.mp hm with he | hm2
      · exact hx he.symm
      · exact ih hm2

theorem pathOf_no_q (l : List Char) (h : '?' ∉ l) : '?' ∉ (pathOf l).data := by
  unfold pathOf
  split
  · decide
  · exact h

theorem parseAfterScheme_pathname_no_q {sch : String} {rest : List Char} {u : URL}
    (h : parseAfterScheme sch rest = some u) : '?' ∉ u.pathname.data := by
  unfold parseAfterScheme at h
  by_cases h3 : rest.takeWhile hostChar = []
  · rw [if_pos h3] at h; exact absurd h (by simp)
  · rw [if_neg h3] at h
    obtain rfl := Option.some.inj h
    exact pathOf_no_q _ (splitAtChar_fst_not_mem '?' _)

theorem parseURL_pathname_no_q {s : String} {u : URL} (h : parseURL s = some u) :
    '?' ∉ u.pathname.data := by
  unfold parseURL at h
  cases hb : breakOnSub "://".data (splitAtChar '#' s.data).1 with
  | none => simp [hb] at h
  | some p =>
    simp only [hb] at h
    by_cases h1 : p.1 = []
    · rw [if_pos h1] at h; exact absurd h (by simp)
    · rw [if_neg h1] at h
      by_cases h2 : p.1.all isSchemeChar = true
      · rw [if_pos h2] at h
        exact parseAfterScheme_pathname_no_q h
      · rw [if_neg h2] at h; exact absurd h (by simp)

/-- The regex `/\.m3u8(\?|$)/i` at one position: matched exactly when the
whole remainder lower-cases to `.m3u8`, provided the text contains no `?`. -/
theorem testHls_head_iff (l : List Char) (hq : '?' ∉ l) :
    (((l.take 5).map Char.toLower == ".m3u8".data) &&
      ((l.drop 5).isEmpty || ((l.drop 5).head? == some '?'))) = true ↔
    l.map Char.toLower = ".m3u8".data := by
  constructor
  · intro hb
    rw [Bool.and_eq_true] at hb
    obtain ⟨hA, hBC⟩ := hb
    rw [beq_iff_eq] at hA
    rcases Bool.or_eq_true _ _ |>.mp hBC with hB | hC
    · have hdrop : l.drop 5 = [] := List.isEmpty_iff.mp hB
      have hlen : l.length ≤ 5 := List.drop_eq_nil_iff.mp hdrop
      rwa [List.take_of_length_le hlen] at hA
    · exfalso
      rw [beq_iff_eq] at hC
      cases hd : l.drop 5 with
      | nil => rw [hd] at hC; exact absurd hC (by simp)
      | cons x xs =>
        rw [hd] at hC
        have hx : x = '?' := by injection hC
        exact hq (List.mem_of_mem_drop (n := 5) (hd ▸ hx ▸ List.mem_cons_self x xs))
  · intro hm
    have hlen : l.length = 5 := by
      have := congrArg List.length hm
      simpa using this
    rw [Bool.and_eq_true]
    constructor
    · rw [beq_iff_eq, List.take_of_length_le (by omega)]
      exact hm
    · have hdrop : l.drop 5 = [] := List.drop_eq_nil_iff.mpr (by omega)
      rw [hdrop]
      simp

/-- On a `?`-free string the attacher's regex accepts exactly the
case-insensitive suffix `.m3u8`. -/
theorem testHlsPathAux_iff (l : List Char) (hq : '?' ∉ l) :
    testHlsPathAux l = true ↔ ".m3u8".data <:+ l.map Char.toLower := by
  induction l with
  | nil =>
    rw [show testHlsPathAux [] = false from rfl]
    simp only [List.map_nil, List.suffix_nil]
    constructor
    · intro hb; exact absurd hb (by simp)
    · intro he; exact absurd he (by decide)
  | cons c rest ih =>
    have hqr : '?' ∉ rest := fun hm => hq (List.mem_cons_of_mem c hm)
    unfold testHlsPathAux
    rw [Bool.or_eq_true, ih hqr, testHls_head_iff (c :: rest) hq,
        List.map_cons, List.suffix_cons_iff]
    constructor
    · rintro (he | hs)
      · exact Or.inl he.symm
      · exact Or.inr hs
    · rintro (he | hs)
      · exact Or.inl he.symm
      · exact Or.inr hs

/-- C4 fails as stated: `https://x.example/a.m3u` parses, its path `/a.m3u`
ends in `.m3u` (case-insensitively), yet the attacher classifies it as NOT
HLS — the classification regex of line 49 is `/\.m3u8(\?|$)/i`, which does
not accept a bare `.m3u`. -/
theorem classifyIsHls_m3u_counterexample :
    parseURL "https://x.example/a.m3u" =
      some { scheme := "https", host := "x.example", pathname := "/a.m3u",
             search := "" } ∧
    endsWithL (lowerStr "/a.m3u") ".m3u" = true ∧
    classifyIsHls "https://x.example/a.m3u" = false := by decide

/-- C4 amended. The media source is classified HLS exactly when its URL
parses and the pathname ends in `.m3u8` case-insensitively (the regex also
accepts `.m3u8` followed by `?`, which cannot occur in a parsed pathname),
or the URL fails to parse and the lower-cased source contains `.m3u8` as a
substring; `.m3u` alone is NOT classified as HLS. When the classification
is not HLS the attacher performs no action. -/
theorem classifyIsHls_amended (src : String) (canNative : Bool) :
    (classifyIsHls src = true ↔
      ((∃ u, parseURL src = some u ∧
          ".m3u8".data <:+ u.pathname.data.map Char.toLower) ∨
       (parseURL src = none ∧ containsSub (lowerStr src) ".m3u8" = true))) ∧
    (classifyIsHls src = false → attachAction src canNative = AttachAction.nothing) := by
  constructor
  · unfold classifyIsHls
    cases hp : parseURL src with
    | none => simp [hp]
    | some u =>
      rw [show (match some u with
          | some v => testHlsPathAux v.pathname.data
          | none => containsSub (lowerStr src) ".m3u8") =
            testHlsPathAux u.pathname.data from rfl,
        testHlsPathAux_iff u.pathname.data (parseURL_pathname_no_q hp)]
      simp [hp]
  · intro h
    simp [attachAction, h]

/-- Witness for C4 (amended): a non-HLS source leads to no attachment
action. -/
theorem classifyIsHls_amended_witness :
    attachAction "https://x.example/a.mp3" false = AttachAction.nothing :=
  (classifyIsHls_amended "https://x.example/a.mp3" false).2 (by decide)
